import Mathlib

/-!
# Verification of the vault-core foundation layer

Shallow embedding of the `vault-core` Rust crate: the error taxonomy
(`error.rs`), the network selector, vault templates and the binary metadata
codec (`vault/mod.rs`), and the `vault_init` boundary entry point (`lib.rs`).

Bytes are modelled as `Nat` values (the `u8` range invariant `< 256` is
carried as an explicit hypothesis where it matters); `u32` values are `Nat`
with explicit `% 2^32` arithmetic; Rust `String` fields are modelled as
their UTF-8 byte lists together with a validity predicate, mirroring the
`String::from_utf8` check performed by the decoder.  Fallible Rust indexing
(`data[i]`, `data[a..b]`) is modelled by `Option`-returning accessors; a
failed access maps to the distinguished `DecodeResult.panicked` outcome so
that absence of out-of-bounds reads is a provable theorem rather than an
artefact of the embedding.
-/

namespace VaultCore

/-- `CoreError` from `error.rs`: the closed error taxonomy.  String payloads
carry the rendered message fragments; `InsufficientFunds` carries the two
`u64` amounts as naturals. -/
inductive CoreError where
  | InvalidXpub (msg : String)
  | InvalidAddress (msg : String)
  | NetworkMismatch (expected actual : String)
  | PsbtError (msg : String)
  | DerivationError (msg : String)
  | MetadataError (msg : String)
  | InsufficientFunds (needed available : Nat)
  | PolicyViolation (msg : String)
  | SerializationError (msg : String)
  | InvalidInput (msg : String)
  deriving DecidableEq, Repr

/-- `CoreError::code` from `error.rs`: the stable FFI error-code mapping. -/
def CoreError.code : CoreError → Int
  | .InvalidXpub _ => 1001
  | .InvalidAddress _ => 1002
  | .NetworkMismatch _ _ => 1003
  | .PsbtError _ => 2001
  | .InsufficientFunds _ _ => 2002
  | .PolicyViolation _ => 2003
  | .DerivationError _ => 3001
  | .MetadataError _ => 3002
  | .SerializationError _ => 4001
  | .InvalidInput _ => 4002

/-- `Network` from `vault/mod.rs`: the four supported chain networks. -/
inductive Network where
  | Mainnet
  | Testnet
  | Signet
  | Regtest
  deriving DecidableEq, Repr

/-- The external `bitcoin::Network` enum (the chain-parameter type of the
`bitcoin` crate), as far as this crate maps onto it. -/
inductive BitcoinNetwork where
  | Bitcoin
  | Testnet
  | Signet
  | Regtest
  deriving DecidableEq, Repr

/-- `impl From<Network> for bitcoin::Network` in `vault/mod.rs`. -/
def Network.toBitcoin : Network → BitcoinNetwork
  | .Mainnet => .Bitcoin
  | .Testnet => .Testnet
  | .Signet => .Signet
  | .Regtest => .Regtest

/-- `impl TryFrom<i32> for Network` in `vault/mod.rs`: accepts exactly the
integer codes 0-3. -/
def Network.try_from (value : Int) : Except CoreError Network :=
  if value = 0 then .ok .Mainnet
  else if value = 1 then .ok .Testnet
  else if value = 2 then .ok .Signet
  else if value = 3 then .ok .Regtest
  else .error (.InvalidInput ("Invalid network value: " ++ toString value))

/-- `vault_init` from `lib.rs`: validates the network code, returning 0 on
success and -1 on an invalid code.  It is a pure function of its argument
(the Rust function holds no state). -/
def vault_init (network : Int) : Int :=
  match Network.try_from network with
  | .ok _ => 0
  | .error _ => -1

/-- `RecoveryType` from `vault/mod.rs`. -/
inductive RecoveryType where
  | EmergencyKey
  | TimelockOnly
  | MultiSig
  deriving DecidableEq, Repr

/-- The one-byte wire encoding of `RecoveryType` used by
`VaultMetadata::to_bytes`. -/
def RecoveryType.toByte : RecoveryType → Nat
  | .EmergencyKey => 0
  | .TimelockOnly => 1
  | .MultiSig => 2

/-- `VaultTemplate` from `vault/mod.rs`. -/
inductive VaultTemplate where
  | Savings (delay_blocks : Nat)
  | Spending (delay_blocks : Nat)
  | Custom (delay_blocks : Nat) (recovery_type : RecoveryType)
  deriving DecidableEq, Repr

/-- `VaultTemplate::savings()`: canonical savings template. -/
def VaultTemplate.savings : VaultTemplate := .Savings 1008

/-- `VaultTemplate::spending()`: canonical spending template. -/
def VaultTemplate.spending : VaultTemplate := .Spending 144

/-- `VaultTemplate::delay_blocks()`. -/
def VaultTemplate.delay_blocks : VaultTemplate → Nat
  | .Savings d => d
  | .Spending d => d
  | .Custom d _ => d

/-- `VaultTemplate::template_id()`. -/
def VaultTemplate.template_id : VaultTemplate → String
  | .Savings _ => "savings_v1"
  | .Spending _ => "spending_v1"
  | .Custom _ _ => "custom_v1"

/-- A UTF-8 continuation byte (`0x80-0xBF`). -/
def utf8Cont (b : Nat) : Bool := 128 ≤ b && b ≤ 191

/-- Validity of a byte list as UTF-8, as checked by Rust's
`String::from_utf8` (RFC 3629: no overlong forms, no surrogates, no code
points above U+10FFFF). -/
def utf8Valid : List Nat → Bool
  | [] => true
  | b :: rest =>
    if b ≤ 127 then utf8Valid rest
    else if 194 ≤ b && b ≤ 223 then
      match rest with
      | b1 :: rest1 => utf8Cont b1 && utf8Valid rest1
      | [] => false
    else if b = 224 then
      match rest with
      | b1 :: b2 :: rest2 =>
          (160 ≤ b1 && b1 ≤ 191) && (utf8Cont b2 && utf8Valid rest2)
      | _ => false
    else if 225 ≤ b && b ≤ 236 then
      match rest with
      | b1 :: b2 :: rest2 => utf8Cont b1 && (utf8Cont b2 && utf8Valid rest2)
      | _ => false
    else if b = 237 then
      match rest with
      | b1 :: b2 :: rest2 =>
          (128 ≤ b1 && b1 ≤ 159) && (utf8Cont b2 && utf8Valid rest2)
      | _ => false
    else if 238 ≤ b && b ≤ 239 then
      match rest with
      | b1 :: b2 :: rest2 => utf8Cont b1 && (utf8Cont b2 && utf8Valid rest2)
      | _ => false
    else if b = 240 then
      match rest with
      | b1 :: b2 :: b3 :: rest3 =>
          (144 ≤ b1 && b1 ≤ 191) && (utf8Cont b2 && (utf8Cont b3 && utf8Valid rest3))
      | _ => false
    else if 241 ≤ b && b ≤ 243 then
      match rest with
      | b1 :: b2 :: b3 :: rest3 =>
          utf8Cont b1 && (utf8Cont b2 && (utf8Cont b3 && utf8Valid rest3))
      | _ => false
    else if b = 244 then
      match rest with
      | b1 :: b2 :: b3 :: rest3 =>
          (128 ≤ b1 && b1 ≤ 143) && (utf8Cont b2 && (utf8Cont b3 && utf8Valid rest3))
      | _ => false
    else false

/-- `u32::to_le_bytes`: little-endian 4-byte encoding of a `u32` value. -/
def u32ToLeBytes (n : Nat) : List Nat :=
  [n % 256, n / 256 % 256, n / 65536 % 256, n / 16777216 % 256]

/-- `VaultMetadata` from `vault/mod.rs`.  `template_id` is the UTF-8 byte
list of the Rust `String`; the `u8`/`u32`/UTF-8 range invariants of the Rust
field types are captured by `VaultMetadata.wf`. -/
structure VaultMetadata where
  version : Nat
  template_id : List Nat
  delay_blocks : Nat
  destination_indices : List Nat
  recovery_type : RecoveryType
  created_at_block : Nat
  vault_index : Nat
  deriving DecidableEq, Repr

/-- The range invariants guaranteed by the Rust field types of
`VaultMetadata` (`u8`, `String`, `Vec<u8>`, `u32`). -/
def VaultMetadata.wf (m : VaultMetadata) : Prop :=
  m.version < 256 ∧
  m.template_id.all (fun b => b < 256) = true ∧
  utf8Valid m.template_id = true ∧
  m.delay_blocks < 4294967296 ∧
  m.destination_indices.all (fun b => b < 256) = true ∧
  m.created_at_block < 4294967296 ∧
  m.vault_index < 4294967296

instance (m : VaultMetadata) : Decidable m.wf := by
  unfold VaultMetadata.wf; infer_instance

/-- `VaultMetadata::to_bytes` from `vault/mod.rs`: the fixed binary layout
`[version][tid_len][tid][delay:4LE][dest_count][dest][recovery][created:4LE][index:4LE]`.
The two `len as u8` casts are `% 256`. -/
def VaultMetadata.to_bytes (m : VaultMetadata) : List Nat :=
  [m.version] ++
  [m.template_id.length % 256] ++ m.template_id ++
  u32ToLeBytes m.delay_blocks ++
  [m.destination_indices.length % 256] ++ m.destination_indices ++
  [m.recovery_type.toByte] ++
  u32ToLeBytes m.created_at_block ++
  u32ToLeBytes m.vault_index

/-- Rust slice indexing `data[a..b]`: defined only when `a ≤ b ≤ len`
(otherwise Rust panics, modelled as `none`). -/
def sliceGet (data : List Nat) (a b : Nat) : Option (List Nat) :=
  if a ≤ b ∧ b ≤ data.length then some ((data.drop a).take (b - a)) else none

/-- `u32::from_le_bytes([data[pos], data[pos+1], data[pos+2], data[pos+3]])`:
`none` when any of the four indexing operations would panic. -/
def readU32LE (data : List Nat) (pos : Nat) : Option Nat :=
  match data[pos]?, data[pos + 1]?, data[pos + 2]?, data[pos + 3]? with
  | some b0, some b1, some b2, some b3 =>
      some (b0 + 256 * b1 + 65536 * b2 + 16777216 * b3)
  | _, _, _, _ => none

/-- The `match data[pos]` arms of `VaultMetadata::from_bytes` decoding the
recovery-type byte: bytes 0, 1, 2 map to the three variants; anything else
is rejected (`none` here, an early `return Err` in the source). -/
def decodeRecoveryType (b : Nat) : Option RecoveryType :=
  if b = 0 then some .EmergencyKey
  else if b = 1 then some .TimelockOnly
  else if b = 2 then some .MultiSig
  else none

/-- Outcome of `VaultMetadata::from_bytes`: success, a typed `CoreError`, or
a process panic (an out-of-bounds index, which the theorems below prove
unreachable). -/
inductive DecodeResult where
  | ok (m : VaultMetadata)
  | error (e : CoreError)
  | panicked
  deriving DecidableEq, Repr

/-- `VaultMetadata::from_bytes` from `vault/mod.rs`, translated check by
check: each Rust `data[i]` / `data[a..b]` access goes through the
`Option`-returning accessors, with a failed access (a Rust panic) mapped to
`DecodeResult.panicked`. -/
def VaultMetadata.from_bytes (data : List Nat) : DecodeResult :=
  if data.length = 0 then .error (.MetadataError "Empty metadata bytes") else
  match data[0]? with
  | none => .panicked
  | some version =>
  if 1 ≥ data.length then .error (.MetadataError "Truncated metadata") else
  match data[1]? with
  | none => .panicked
  | some template_id_len =>
  if 2 + template_id_len > data.length then
    .error (.MetadataError "Invalid template_id length") else
  match sliceGet data 2 (2 + template_id_len) with
  | none => .panicked
  | some template_id =>
  if utf8Valid template_id = false then
    .error (.MetadataError "Invalid UTF-8") else
  if 2 + template_id_len + 4 > data.length then
    .error (.MetadataError "Truncated delay_blocks") else
  match readU32LE data (2 + template_id_len) with
  | none => .panicked
  | some delay_blocks =>
  if 6 + template_id_len ≥ data.length then
    .error (.MetadataError "Truncated destination_indices") else
  match data[6 + template_id_len]? with
  | none => .panicked
  | some dest_count =>
  if 7 + template_id_len + dest_count > data.length then
    .error (.MetadataError "Invalid destination_indices length") else
  match sliceGet data (7 + template_id_len) (7 + template_id_len + dest_count) with
  | none => .panicked
  | some destination_indices =>
  if 7 + template_id_len + dest_count ≥ data.length then
    .error (.MetadataError "Truncated recovery_type") else
  match data[7 + template_id_len + dest_count]? with
  | none => .panicked
  | some rb =>
  match decodeRecoveryType rb with
  | none => .error (.MetadataError ("Invalid recovery_type: " ++ toString rb))
  | some recovery_type =>
  if 8 + template_id_len + dest_count + 4 > data.length then
    .error (.MetadataError "Truncated created_at_block") else
  match readU32LE data (8 + template_id_len + dest_count) with
  | none => .panicked
  | some created_at_block =>
  if 12 + template_id_len + dest_count + 4 > data.length then
    .error (.MetadataError "Truncated vault_index") else
  match readU32LE data (12 + template_id_len + dest_count) with
  | none => .panicked
  | some vault_index =>
  .ok { version := version, template_id := template_id,
        delay_blocks := delay_blocks,
        destination_indices := destination_indices,
        recovery_type := recovery_type,
        created_at_block := created_at_block,
        vault_index := vault_index }

/-- The concrete metadata of the repository's round-trip test
(`test_metadata_roundtrip` and spec §8): template `"savings_v1"` (given by
its UTF-8 bytes), delay 1008, destinations `[0, 1, 2]`, emergency-key
recovery, created at block 800000, vault index 42. -/
def sampleMetadata : VaultMetadata :=
  ⟨1, [115, 97, 118, 105, 110, 103, 115, 95, 118, 49], 1008, [0, 1, 2],
   .EmergencyKey, 800000, 42⟩

/-- Indexing an append at exactly the length of the left part reads the head
of the right part. -/
theorem getElem?_at_length0 {α : Type} (pre suf : List α) (n : Nat)
    (h : pre.length = n) : (pre ++ suf)[n]? = suf[0]? := by
  rw [List.getElem?_append_right (by omega)]
  congr 1
  omega

/-- Indexing an append at the length of the left part plus `k` reads entry
`k` of the right part. -/
theorem getElem?_at_length_add {α : Type} (pre suf : List α) (n k : Nat)
    (h : pre.length = n) : (pre ++ suf)[n + k]? = suf[k]? := by
  rw [List.getElem?_append_right (by omega)]
  congr 1
  omega

/-- A slice access fails exactly when its bounds are invalid. -/
theorem sliceGet_eq_none_iff (data : List Nat) (a b : Nat) :
    sliceGet data a b = none ↔ ¬(a ≤ b ∧ b ≤ data.length) := by
  unfold sliceGet
  split <;> simp_all

/-- A successful slice access has the length of its range and in-bounds
endpoints. -/
theorem sliceGet_eq_some_inv (data : List Nat) (a b : Nat) (l : List Nat)
    (h : sliceGet data a b = some l) :
    l.length = b - a ∧ a ≤ b ∧ b ≤ data.length := by
  unfold sliceGet at h
  split at h
  · next hc =>
    injection h with h
    subst h
    refine ⟨?_, hc.1, hc.2⟩
    simp only [List.length_take, List.length_drop]
    omega
  · cases h

/-- Reading a little-endian `u32` fails exactly when fewer than four bytes
remain at the read position. -/
theorem readU32LE_eq_none_iff (data : List Nat) (pos : Nat) :
    readU32LE data pos = none ↔ data.length < pos + 4 := by
  constructor
  · intro h
    by_contra hlt
    push_neg at hlt
    simp only [readU32LE] at h
    rw [List.getElem?_eq_getElem (show pos < data.length by omega),
        List.getElem?_eq_getElem (show pos + 1 < data.length by omega),
        List.getElem?_eq_getElem (show pos + 2 < data.length by omega),
        List.getElem?_eq_getElem (show pos + 3 < data.length by omega)] at h
    simp at h
  · intro hlt
    have h3 : data[pos + 3]? = none := by
      rw [List.getElem?_eq_none_iff]
      omega
    cases h0 : data[pos]? <;> cases h1 : data[pos + 1]? <;>
      cases h2 : data[pos + 2]? <;> simp [readU32LE, h0, h1, h2, h3]

/-- C6: `Network::try_from` accepts exactly the integers 0-3, mapping them to
the four network variants, and rejects every other integer with an
`InvalidInput` error naming the offending value; the companion conversion
`From<Network> for bitcoin::Network` is total, mapping each of the four
variants to its external counterpart. -/
theorem network_try_from_spec :
    (∀ value : Int,
      Network.try_from value =
        if value = 0 then .ok .Mainnet
        else if value = 1 then .ok .Testnet
        else if value = 2 then .ok .Signet
        else if value = 3 then .ok .Regtest
        else .error (.InvalidInput ("Invalid network value: " ++ toString value))) ∧
    (∀ value : Int, (∃ n, Network.try_from value = .ok n) ↔
      (value = 0 ∨ value = 1 ∨ value = 2 ∨ value = 3)) ∧
    Network.toBitcoin .Mainnet = .Bitcoin ∧
    Network.toBitcoin .Testnet = .Testnet ∧
    Network.toBitcoin .Signet = .Signet ∧
    Network.toBitcoin .Regtest = .Regtest := by
  refine ⟨fun value => rfl, fun value => ?_, rfl, rfl, rfl, rfl⟩
  constructor
  · intro ⟨n, hn⟩
    by_contra hv
    push_neg at hv
    obtain ⟨h0, h1, h2, h3⟩ := hv
    simp [Network.try_from, h0, h1, h2, h3] at hn
  · rintro (rfl | rfl | rfl | rfl) <;> exact ⟨_, rfl⟩

/-- C7: `CoreError::code` maps every error kind to its documented fixed
code, and every code is a 4-digit number lying in its documented range
group (1xxx validation, 2xxx transaction/policy, 3xxx derivation/metadata,
4xxx serialization/input). -/
theorem core_error_code_spec :
    (∀ s, (CoreError.InvalidXpub s).code = 1001) ∧
    (∀ s, (CoreError.InvalidAddress s).code = 1002) ∧
    (∀ s t, (CoreError.NetworkMismatch s t).code = 1003) ∧
    (∀ s, (CoreError.PsbtError s).code = 2001) ∧
    (∀ a b, (CoreError.InsufficientFunds a b).code = 2002) ∧
    (∀ s, (CoreError.PolicyViolation s).code = 2003) ∧
    (∀ s, (CoreError.DerivationError s).code = 3001) ∧
    (∀ s, (CoreError.MetadataError s).code = 3002) ∧
    (∀ s, (CoreError.SerializationError s).code = 4001) ∧
    (∀ s, (CoreError.InvalidInput s).code = 4002) ∧
    (∀ e : CoreError, 1000 ≤ e.code ∧ e.code ≤ 9999) := by
  refine ⟨fun _ => rfl, fun _ => rfl, fun _ _ => rfl, fun _ => rfl,
    fun _ _ => rfl, fun _ => rfl, fun _ => rfl, fun _ => rfl,
    fun _ => rfl, fun _ => rfl, fun e => ?_⟩
  cases e <;> simp [CoreError.code]

/-- C8: the canonical savings template has a 1008-block delay and the
canonical spending template a 144-block delay; `template_id` returns the
stable identifier of each variant and `delay_blocks` returns the configured
field uniformly for all three variants. -/
theorem vault_template_spec :
    VaultTemplate.savings.delay_blocks = 1008 ∧
    VaultTemplate.spending.delay_blocks = 144 ∧
    (∀ d, (VaultTemplate.Savings d).template_id = "savings_v1") ∧
    (∀ d, (VaultTemplate.Spending d).template_id = "spending_v1") ∧
    (∀ d r, (VaultTemplate.Custom d r).template_id = "custom_v1") ∧
    (∀ d, (VaultTemplate.Savings d).delay_blocks = d) ∧
    (∀ d, (VaultTemplate.Spending d).delay_blocks = d) ∧
    (∀ d r, (VaultTemplate.Custom d r).delay_blocks = d) := by
  exact ⟨rfl, rfl, fun _ => rfl, fun _ => rfl, fun _ _ => rfl,
    fun _ => rfl, fun _ => rfl, fun _ _ => rfl⟩

/-- C9: `vault_init` returns 0 exactly on the valid network codes 0-3 and
-1 on every other integer; as a Lean function it is stateless by
construction, its result depending only on its argument. -/
theorem vault_init_spec :
    ∀ value : Int,
      (vault_init value = 0 ↔ (value = 0 ∨ value = 1 ∨ value = 2 ∨ value = 3)) ∧
      (vault_init value = 0 ∨ vault_init value = -1) := by
  intro value
  by_cases h0 : value = 0
  · subst h0; refine ⟨by simp [vault_init, Network.try_from], Or.inl rfl⟩
  by_cases h1 : value = 1
  · subst h1; refine ⟨by simp [vault_init, Network.try_from], Or.inl rfl⟩
  by_cases h2 : value = 2
  · subst h2; refine ⟨by simp [vault_init, Network.try_from], Or.inl rfl⟩
  by_cases h3 : value = 3
  · subst h3; refine ⟨by simp [vault_init, Network.try_from], Or.inl rfl⟩
  · refine ⟨?_, Or.inr (by simp [vault_init, Network.try_from, h0, h1, h2, h3])⟩
    simp [vault_init, Network.try_from, h0, h1, h2, h3]

/-- Evaluation of `VaultMetadata::from_bytes` on a buffer with the encoded
layout: a version byte, a correct `template_id` length byte followed by the
(valid UTF-8) `template_id` bytes, four delay bytes, a correct destination
count byte followed by the destination bytes, a recovery byte, four
`created_at_block` bytes, four `vault_index` bytes, and arbitrary trailing
bytes.  The result is determined by the recovery byte. -/
theorem from_bytes_append_eq (v rb : Nat) (t d extra : List Nat)
    (a0 a1 a2 a3 c0 c1 c2 c3 i0 i1 i2 i3 : Nat)
    (hu : utf8Valid t = true) :
    VaultMetadata.from_bytes
      (v :: t.length :: (t ++ ([a0, a1, a2, a3] ++ (d.length ::
        (d ++ (rb :: ([c0, c1, c2, c3] ++ ([i0, i1, i2, i3] ++ extra)))))))) =
      if rb = 0 then
        .ok ⟨v, t, a0 + 256 * a1 + 65536 * a2 + 16777216 * a3, d,
             .EmergencyKey, c0 + 256 * c1 + 65536 * c2 + 16777216 * c3,
             i0 + 256 * i1 + 65536 * i2 + 16777216 * i3⟩
      else if rb = 1 then
        .ok ⟨v, t, a0 + 256 * a1 + 65536 * a2 + 16777216 * a3, d,
             .TimelockOnly, c0 + 256 * c1 + 65536 * c2 + 16777216 * c3,
             i0 + 256 * i1 + 65536 * i2 + 16777216 * i3⟩
      else if rb = 2 then
        .ok ⟨v, t, a0 + 256 * a1 + 65536 * a2 + 16777216 * a3, d,
             .MultiSig, c0 + 256 * c1 + 65536 * c2 + 16777216 * c3,
             i0 + 256 * i1 + 65536 * i2 + 16777216 * i3⟩
      else .error (.MetadataError ("Invalid recovery_type: " ++ toString rb)) := by
  set S4 : List Nat := [i0, i1, i2, i3] ++ extra with hS4
  set S3 : List Nat := [c0, c1, c2, c3] ++ S4 with hS3
  set S2 : List Nat := rb :: S3 with hS2
  set S1 : List Nat := d ++ S2 with hS1
  set S0 : List Nat := d.length :: S1 with hS0
  set A : List Nat := [a0, a1, a2, a3] ++ S0 with hA
  set T : List Nat := t ++ A with hT
  have hTlen : T.length = 14 + t.length + d.length + extra.length := by
    simp [hT, hA, hS0, hS1, hS2, hS3, hS4]
    omega
  have hlen : (v :: t.length :: T).length =
      16 + t.length + d.length + extra.length := by
    simp [List.length_cons, hTlen]
    omega
  have h0 : (v :: t.length :: T)[0]? = some v := by simp
  have h1 : (v :: t.length :: T)[1]? = some t.length := by simp
  have hsl1 : sliceGet (v :: t.length :: T) 2 (2 + t.length) = some t := by
    unfold sliceGet
    rw [if_pos ⟨by omega, by rw [hlen]; omega⟩]
    have hd2 : (v :: t.length :: T).drop 2 = T := rfl
    rw [hd2, show 2 + t.length - 2 = t.length by omega, hT]
    exact congrArg some (List.take_left' rfl)
  have e2 : (v :: t.length :: T) = (v :: t.length :: t) ++ A := by
    simp [hT]
  have hA4 : A = a0 :: a1 :: a2 :: a3 :: S0 := by simp [hA]
  have hp2 : (v :: t.length :: t).length = 2 + t.length := by
    simp
    omega
  have hr1 : readU32LE (v :: t.length :: T) (2 + t.length) =
      some (a0 + 256 * a1 + 65536 * a2 + 16777216 * a3) := by
    rw [e2, hA4]
    simp only [readU32LE, getElem?_at_length0 _ _ _ hp2,
      getElem?_at_length_add _ _ _ _ hp2]
    simp
  have e6 : (v :: t.length :: T) =
      (v :: t.length :: (t ++ [a0, a1, a2, a3])) ++ S0 := by
    simp [hT, hA]
  have hp6 : (v :: t.length :: (t ++ [a0, a1, a2, a3])).length =
      6 + t.length := by
    simp
    omega
  have hdc : (v :: t.length :: T)[6 + t.length]? = some d.length := by
    rw [e6, getElem?_at_length0 _ _ _ hp6, hS0]
    simp
  have e7 : (v :: t.length :: T) =
      (v :: t.length :: (t ++ [a0, a1, a2, a3] ++ [d.length])) ++ S1 := by
    simp [hT, hA, hS0, List.append_assoc]
  have hp7 : (v :: t.length :: (t ++ [a0, a1, a2, a3] ++ [d.length])).length =
      7 + t.length := by
    simp
    omega
  have hsl2 : sliceGet (v :: t.length :: T) (7 + t.length)
      (7 + t.length + d.length) = some d := by
    unfold sliceGet
    rw [if_pos ⟨by omega, by rw [hlen]; omega⟩]
    rw [show 7 + t.length + d.length - (7 + t.length) = d.length by omega]
    rw [e7, List.drop_left' hp7, hS1]
    exact congrArg some (List.take_left' rfl)
  have e7d : (v :: t.length :: T) =
      (v :: t.length :: (t ++ [a0, a1, a2, a3] ++ [d.length] ++ d)) ++ S2 := by
    simp [hT, hA, hS0, hS1, List.append_assoc]
  have hp7d : (v :: t.length ::
      (t ++ [a0, a1, a2, a3] ++ [d.length] ++ d)).length =
      7 + t.length + d.length := by
    simp
    omega
  have hrb : (v :: t.length :: T)[7 + t.length + d.length]? = some rb := by
    rw [e7d, getElem?_at_length0 _ _ _ hp7d, hS2]
    simp
  have e8 : (v :: t.length :: T) =
      (v :: t.length :: (t ++ [a0, a1, a2, a3] ++ [d.length] ++ d ++ [rb]))
        ++ S3 := by
    simp [hT, hA, hS0, hS1, hS2, List.append_assoc]
  have hp8 : (v :: t.length ::
      (t ++ [a0, a1, a2, a3] ++ [d.length] ++ d ++ [rb])).length =
      8 + t.length + d.length := by
    simp
    omega
  have hS3c : S3 = c0 :: c1 :: c2 :: c3 :: S4 := by simp [hS3]
  have hr2 : readU32LE (v :: t.length :: T) (8 + t.length + d.length) =
      some (c0 + 256 * c1 + 65536 * c2 + 16777216 * c3) := by
    rw [e8, hS3c]
    simp only [readU32LE, getElem?_at_length0 _ _ _ hp8,
      getElem?_at_length_add _ _ _ _ hp8]
    simp
  have e12 : (v :: t.length :: T) =
      (v :: t.length :: (t ++ [a0, a1, a2, a3] ++ [d.length] ++ d ++ [rb]
        ++ [c0, c1, c2, c3])) ++ S4 := by
    simp [hT, hA, hS0, hS1, hS2, hS3, List.append_assoc]
  have hp12 : (v :: t.length :: (t ++ [a0, a1, a2, a3] ++ [d.length] ++ d
      ++ [rb] ++ [c0, c1, c2, c3])).length = 12 + t.length + d.length := by
    simp
    omega
  have hS4c : S4 = i0 :: i1 :: i2 :: i3 :: extra := by simp [hS4]
  have hr3 : readU32LE (v :: t.length :: T) (12 + t.length + d.length) =
      some (i0 + 256 * i1 + 65536 * i2 + 16777216 * i3) := by
    rw [e12, hS4c]
    simp only [readU32LE, getElem?_at_length0 _ _ _ hp12,
      getElem?_at_length_add _ _ _ _ hp12]
    simp
  have hc0 : ¬((v :: t.length :: T).length = 0) := by rw [hlen]; omega
  have hc1 : ¬(1 ≥ (v :: t.length :: T).length) := by rw [hlen]; omega
  have hc2 : ¬(2 + t.length > (v :: t.length :: T).length) := by
    rw [hlen]; omega
  have hc3 : ¬(2 + t.length + 4 > (v :: t.length :: T).length) := by
    rw [hlen]; omega
  have hc4 : ¬(6 + t.length ≥ (v :: t.length :: T).length) := by
    rw [hlen]; omega
  have hc5 : ¬(7 + t.length + d.length > (v :: t.length :: T).length) := by
    rw [hlen]; omega
  have hc6 : ¬(7 + t.length + d.length ≥ (v :: t.length :: T).length) := by
    rw [hlen]; omega
  have hc7 : ¬(8 + t.length + d.length + 4 > (v :: t.length :: T).length) := by
    rw [hlen]; omega
  have hc8 : ¬(12 + t.length + d.length + 4 > (v :: t.length :: T).length) := by
    rw [hlen]; omega
  simp only [VaultMetadata.from_bytes, h0, h1, hsl1, hr1, hdc, hsl2, hrb,
    hr2, hr3, hc0, hc1, hc2, hc3, hc4, hc5, hc6, hc7, hc8, hu,
    if_false, if_true, ite_false, ite_true]
  by_cases hb0 : rb = 0
  · simp [decodeRecoveryType, hb0]
  by_cases hb1 : rb = 1
  · simp [decodeRecoveryType, hb0, hb1]
  by_cases hb2 : rb = 2
  · simp [decodeRecoveryType, hb0, hb1, hb2]
  · simp [decodeRecoveryType, hb0, hb1, hb2]

/-- No input can drive `VaultMetadata::from_bytes` to an out-of-bounds
access: every indexing operation is protected by the preceding
remaining-bytes check. -/
theorem from_bytes_ne_panicked (data : List Nat) :
    VaultMetadata.from_bytes data ≠ .panicked := by
  intro h
  unfold VaultMetadata.from_bytes at h
  repeat' split at h
  all_goals try exact DecodeResult.noConfusion h
  all_goals
    simp only [List.getElem?_eq_none_iff, sliceGet_eq_none_iff,
      readU32LE_eq_none_iff] at *
  all_goals omega

/-- Every error returned by `VaultMetadata::from_bytes` is of the
`MetadataError` kind. -/
theorem from_bytes_error_kind (data : List Nat) (e : CoreError)
    (h : VaultMetadata.from_bytes data = .error e) :
    ∃ msg, e = CoreError.MetadataError msg := by
  unfold VaultMetadata.from_bytes at h
  repeat' split at h
  all_goals try exact DecodeResult.noConfusion h
  all_goals
    injection h with h
    exact ⟨_, h.symm⟩

/-- A successful decode pins the declared field lengths to the length bytes
of the buffer and forces the buffer to hold the full 16-byte fixed overhead
plus both variable fields. -/
theorem from_bytes_ok_lengths (data : List Nat) (m : VaultMetadata)
    (h : VaultMetadata.from_bytes data = .ok m) :
    data[1]? = some m.template_id.length ∧
    data[6 + m.template_id.length]? = some m.destination_indices.length ∧
    16 + m.template_id.length + m.destination_indices.length ≤
      data.length := by
  unfold VaultMetadata.from_bytes at h
  split at h
  · exact DecodeResult.noConfusion h
  split at h
  · exact DecodeResult.noConfusion h
  rename_i ver hver
  split at h
  · exact DecodeResult.noConfusion h
  split at h
  · exact DecodeResult.noConfusion h
  rename_i tl htl
  split at h
  · exact DecodeResult.noConfusion h
  split at h
  · exact DecodeResult.noConfusion h
  rename_i tid htid
  split at h
  · exact DecodeResult.noConfusion h
  split at h
  · exact DecodeResult.noConfusion h
  split at h
  · exact DecodeResult.noConfusion h
  rename_i delay hdelay
  split at h
  · exact DecodeResult.noConfusion h
  split at h
  · exact DecodeResult.noConfusion h
  rename_i dc hdc
  split at h
  · exact DecodeResult.noConfusion h
  split at h
  · exact DecodeResult.noConfusion h
  rename_i dest hdest
  split at h
  · exact DecodeResult.noConfusion h
  split at h
  · exact DecodeResult.noConfusion h
  rename_i rbv hrbv
  split at h
  · exact DecodeResult.noConfusion h
  rename_i rt hrt
  split at h
  · exact DecodeResult.noConfusion h
  split at h
  · exact DecodeResult.noConfusion h
  rename_i cr hcr
  split at h
  · exact DecodeResult.noConfusion h
  rename_i hg9
  split at h
  · exact DecodeResult.noConfusion h
  rename_i vidx hvidx
  injection h with h
  subst h
  have h1 : tid.length = tl := by
    obtain ⟨e, -, -⟩ := sliceGet_eq_some_inv _ _ _ _ htid
    omega
  have h2 : dest.length = dc := by
    obtain ⟨e, -, -⟩ := sliceGet_eq_some_inv _ _ _ _ hdest
    omega
  refine ⟨?_, ?_, ?_⟩
  · rw [h1]
    exact htl
  · rw [h1, h2]
    exact hdc
  · rw [h1, h2]
    omega

/-- The encoded buffer always carries the 16 fixed bytes plus both
variable-length fields in full. -/
theorem to_bytes_length (m : VaultMetadata) :
    m.to_bytes.length =
      16 + m.template_id.length + m.destination_indices.length := by
  simp [VaultMetadata.to_bytes, u32ToLeBytes]
  omega

/-- Byte 1 of the encoding is the `template_id` length reduced mod 256. -/
theorem to_bytes_getElem1 (m : VaultMetadata) :
    m.to_bytes[1]? = some (m.template_id.length % 256) := by
  simp [VaultMetadata.to_bytes]

/-- Byte `6 + template_id.length` of the encoding is the destination count
reduced mod 256. -/
theorem to_bytes_getElem6 (m : VaultMetadata) :
    m.to_bytes[6 + m.template_id.length]? =
      some (m.destination_indices.length % 256) := by
  have e : m.to_bytes =
      (m.version :: (m.template_id.length % 256) ::
        (m.template_id ++ u32ToLeBytes m.delay_blocks)) ++
      ((m.destination_indices.length % 256) ::
        (m.destination_indices ++ ([m.recovery_type.toByte] ++
          (u32ToLeBytes m.created_at_block ++ u32ToLeBytes m.vault_index)))) := by
    simp [VaultMetadata.to_bytes, List.append_assoc]
  rw [e, getElem?_at_length0 _ _ _ (by simp [u32ToLeBytes]; omega)]
  simp

/-- The `template_id` bytes appear in full at offset 2 of the encoding,
whatever their number. -/
theorem to_bytes_template_slice (m : VaultMetadata) :
    (m.to_bytes.drop 2).take m.template_id.length = m.template_id := by
  have e : m.to_bytes.drop 2 =
      m.template_id ++ (u32ToLeBytes m.delay_blocks ++
        ((m.destination_indices.length % 256) ::
          (m.destination_indices ++ ([m.recovery_type.toByte] ++
            (u32ToLeBytes m.created_at_block ++
              u32ToLeBytes m.vault_index))))) := by
    simp [VaultMetadata.to_bytes, List.append_assoc]
  rw [e]
  exact List.take_left' rfl

/-- The `destination_indices` bytes appear in full at offset
`7 + template_id.length` of the encoding, whatever their number. -/
theorem to_bytes_dest_slice (m : VaultMetadata) :
    (m.to_bytes.drop (7 + m.template_id.length)).take
        m.destination_indices.length = m.destination_indices := by
  have e : m.to_bytes =
      (m.version :: (m.template_id.length % 256) ::
        (m.template_id ++ (u32ToLeBytes m.delay_blocks ++
          [m.destination_indices.length % 256]))) ++
      (m.destination_indices ++ ([m.recovery_type.toByte] ++
        (u32ToLeBytes m.created_at_block ++ u32ToLeBytes m.vault_index))) := by
    simp [VaultMetadata.to_bytes, List.append_assoc]
  rw [e, List.drop_left' (by simp [u32ToLeBytes]; omega)]
  exact List.take_left' rfl

/-- C1: for every well-formed `VaultMetadata` (the Rust field types
guarantee `version` and the destination bytes are `u8`s, `template_id` is
valid UTF-8, and the three numeric fields are `u32`s) whose `template_id`
byte length and `destination_indices` count are at most 255,
`VaultMetadata::from_bytes` applied to `VaultMetadata::to_bytes` succeeds
and reproduces every field exactly. -/
theorem metadata_roundtrip (m : VaultMetadata) (hwf : m.wf)
    (ht : m.template_id.length ≤ 255)
    (hd : m.destination_indices.length ≤ 255) :
    VaultMetadata.from_bytes m.to_bytes = .ok m := by
  obtain ⟨ver, t, delay, d, rt, cb, vi⟩ := m
  unfold VaultMetadata.wf at hwf
  dsimp only at hwf ht hd
  obtain ⟨-, -, hu, hdelay, -, hcb, hvi⟩ := hwf
  have e : VaultMetadata.to_bytes ⟨ver, t, delay, d, rt, cb, vi⟩ =
      ver :: t.length :: (t ++
        ([delay % 256, delay / 256 % 256, delay / 65536 % 256,
          delay / 16777216 % 256] ++ (d.length :: (d ++ (rt.toByte ::
        ([cb % 256, cb / 256 % 256, cb / 65536 % 256, cb / 16777216 % 256] ++
        ([vi % 256, vi / 256 % 256, vi / 65536 % 256, vi / 16777216 % 256] ++
          []))))))) := by
    simp [VaultMetadata.to_bytes, u32ToLeBytes, List.append_assoc,
      Nat.mod_eq_of_lt (show t.length < 256 by omega),
      Nat.mod_eq_of_lt (show d.length < 256 by omega)]
  rw [e, from_bytes_append_eq _ _ _ _ _ _ _ _ _ _ _ _ _ _ _ _ _ hu]
  have hS1 : delay % 256 + 256 * (delay / 256 % 256) +
      65536 * (delay / 65536 % 256) +
      16777216 * (delay / 16777216 % 256) = delay := by omega
  have hS2 : cb % 256 + 256 * (cb / 256 % 256) + 65536 * (cb / 65536 % 256) +
      16777216 * (cb / 16777216 % 256) = cb := by omega
  have hS3 : vi % 256 + 256 * (vi / 256 % 256) + 65536 * (vi / 65536 % 256) +
      16777216 * (vi / 16777216 % 256) = vi := by omega
  cases rt <;> simp [RecoveryType.toByte, hS1, hS2, hS3]

/-- Witness for C1 at the repository's own test vector. -/
theorem metadata_roundtrip_witness :
    VaultMetadata.from_bytes sampleMetadata.to_bytes = .ok sampleMetadata :=
  metadata_roundtrip sampleMetadata (by decide) (by decide) (by decide)

/-- C2: `VaultMetadata::from_bytes` is total and memory-safe on every byte
sequence: no input reaches an out-of-bounds access (so every result is `ok`
or a typed error, never a panic), the empty input is rejected immediately
with a `MetadataError`, and a buffer whose `template_id` bytes are not valid
UTF-8 is rejected with a `MetadataError`. -/
theorem from_bytes_total_safe :
    (∀ data : List Nat, VaultMetadata.from_bytes data ≠ .panicked) ∧
    (VaultMetadata.from_bytes [] =
      .error (.MetadataError "Empty metadata bytes")) ∧
    (∀ (v : Nat) (t rest : List Nat), utf8Valid t = false →
      VaultMetadata.from_bytes (v :: t.length :: (t ++ rest)) =
        .error (.MetadataError "Invalid UTF-8")) := by
  refine ⟨from_bytes_ne_panicked, by decide, ?_⟩
  intro v t rest hu
  have hlen : (v :: t.length :: (t ++ rest)).length =
      2 + t.length + rest.length := by
    simp
    omega
  have h0 : (v :: t.length :: (t ++ rest))[0]? = some v := by simp
  have h1 : (v :: t.length :: (t ++ rest))[1]? = some t.length := by simp
  have hsl : sliceGet (v :: t.length :: (t ++ rest)) 2 (2 + t.length) =
      some t := by
    unfold sliceGet
    rw [if_pos ⟨by omega, by rw [hlen]; omega⟩]
    have hd2 : (v :: t.length :: (t ++ rest)).drop 2 = t ++ rest := rfl
    rw [hd2, show 2 + t.length - 2 = t.length by omega]
    exact congrArg some (List.take_left' rfl)
  have hc0 : ¬((v :: t.length :: (t ++ rest)).length = 0) := by
    rw [hlen]; omega
  have hc1 : ¬(1 ≥ (v :: t.length :: (t ++ rest)).length) := by
    rw [hlen]; omega
  have hc2 : ¬(2 + t.length > (v :: t.length :: (t ++ rest)).length) := by
    rw [hlen]; omega
  simp [VaultMetadata.from_bytes, h0, h1, hsl, hc0, hc1, hc2, hu]
  omega

/-- Witness for C2 on the concrete buffer `[7, 1, 255]`, whose one-byte
`template_id` is the invalid UTF-8 byte 255. -/
theorem from_bytes_total_safe_witness :
    VaultMetadata.from_bytes [7, 1, 255] =
      .error (.MetadataError "Invalid UTF-8") := by
  have h := from_bytes_total_safe.2.2 7 [255] [] (by decide)
  simpa using h

/-- C3: decoding any strict prefix of a valid encoding (for a well-formed
metadata within the ≤255 length bounds) yields an error of the
`MetadataError` kind, never a successful decode. -/
theorem prefix_decode_metadata_error (m : VaultMetadata) (hwf : m.wf)
    (ht : m.template_id.length ≤ 255)
    (hd : m.destination_indices.length ≤ 255)
    (n : Nat) (hn : n < m.to_bytes.length) :
    ∃ msg, VaultMetadata.from_bytes (m.to_bytes.take n) =
      .error (.MetadataError msg) := by
  rcases hres : VaultMetadata.from_bytes (m.to_bytes.take n) with m2 | e | _
  · exfalso
    obtain ⟨h1, h6, hL⟩ := from_bytes_ok_lengths _ _ hres
    have hBlen := to_bytes_length m
    have hB1 := to_bytes_getElem1 m
    have hB6 := to_bytes_getElem6 m
    rw [Nat.mod_eq_of_lt (by omega)] at hB1
    rw [Nat.mod_eq_of_lt (by omega)] at hB6
    have hplen : (m.to_bytes.take n).length = n := by
      rw [List.length_take]
      omega
    rw [hplen] at hL
    have hn2 : 2 ≤ n := by omega
    rw [List.getElem?_take, if_pos (by omega), hB1] at h1
    injection h1 with h1
    rw [← h1] at h6 hL
    by_cases h6lt : 6 + m.template_id.length < n
    · rw [List.getElem?_take, if_pos h6lt, hB6] at h6
      injection h6 with h6
      rw [← h6] at hL
      omega
    · rw [List.getElem?_take, if_neg h6lt] at h6
      exact Option.noConfusion h6
  · obtain ⟨msg, rfl⟩ := from_bytes_error_kind _ _ hres
    exact ⟨msg, rfl⟩
  · exact absurd hres (from_bytes_ne_panicked _)

/-- Witness for C3: truncating the sample encoding to its first 5 bytes is
rejected with a `MetadataError`. -/
theorem prefix_decode_metadata_error_witness :
    ∃ msg, VaultMetadata.from_bytes (sampleMetadata.to_bytes.take 5) =
      .error (.MetadataError msg) :=
  prefix_decode_metadata_error sampleMetadata (by decide) (by decide)
    (by decide) 5 (by decide)

/-- C4: `VaultMetadata::to_bytes` is total (it is a Lean function) and its
output is fully determined: the buffer always holds the 16 fixed bytes plus
both variable fields in full, the two length-prefix bytes hold the field
lengths reduced mod 256, and whenever a field exceeds 255 entries the
declared length byte no longer equals the real field length. -/
theorem to_bytes_total_mod256 (m : VaultMetadata) :
    m.to_bytes.length =
      16 + m.template_id.length + m.destination_indices.length ∧
    m.to_bytes[1]? = some (m.template_id.length % 256) ∧
    (m.to_bytes.drop 2).take m.template_id.length = m.template_id ∧
    m.to_bytes[6 + m.template_id.length]? =
      some (m.destination_indices.length % 256) ∧
    (m.to_bytes.drop (7 + m.template_id.length)).take
      m.destination_indices.length = m.destination_indices ∧
    (255 < m.template_id.length →
      m.to_bytes[1]? ≠ some m.template_id.length) ∧
    (255 < m.destination_indices.length →
      m.to_bytes[6 + m.template_id.length]? ≠
        some m.destination_indices.length) := by
  refine ⟨to_bytes_length m, to_bytes_getElem1 m, to_bytes_template_slice m,
    to_bytes_getElem6 m, to_bytes_dest_slice m, ?_, ?_⟩
  · intro hgt hEq
    rw [to_bytes_getElem1 m] at hEq
    injection hEq with hEq
    omega
  · intro hgt hEq
    rw [to_bytes_getElem6 m] at hEq
    injection hEq with hEq
    omega

/-- Witness for C4: with a 300-byte `template_id` the declared length byte
(300 mod 256 = 44) differs from the true length 300. -/
theorem to_bytes_total_mod256_witness :
    (VaultMetadata.to_bytes
      ⟨0, List.replicate 300 97, 0, [], .EmergencyKey, 0, 0⟩)[1]? ≠
      some 300 := by
  have h := (to_bytes_total_mod256
    ⟨0, List.replicate 300 97, 0, [], .EmergencyKey, 0, 0⟩).2.2.2.2.2.1
  simpa only [List.length_replicate] using
    h (by simp only [List.length_replicate]; omega)

/-- C5: on a buffer well-formed up to the recovery-type position (correct
length prefixes, valid UTF-8 `template_id`, full fixed-width fields), the
decode result is determined by the recovery byte: 0, 1, 2 decode to
`EmergencyKey`, `TimelockOnly`, `MultiSig` respectively, and any other byte
is rejected with a `MetadataError` naming the invalid value. -/
theorem recovery_type_byte_spec (v rb : Nat) (t d : List Nat)
    (a0 a1 a2 a3 c0 c1 c2 c3 i0 i1 i2 i3 : Nat)
    (hu : utf8Valid t = true) (hrb : rb < 256) :
    VaultMetadata.from_bytes
      (v :: t.length :: (t ++ ([a0, a1, a2, a3] ++ (d.length ::
        (d ++ (rb :: ([c0, c1, c2, c3] ++ [i0, i1, i2, i3]))))))) =
      if rb = 0 then
        .ok ⟨v, t, a0 + 256 * a1 + 65536 * a2 + 16777216 * a3, d,
             .EmergencyKey, c0 + 256 * c1 + 65536 * c2 + 16777216 * c3,
             i0 + 256 * i1 + 65536 * i2 + 16777216 * i3⟩
      else if rb = 1 then
        .ok ⟨v, t, a0 + 256 * a1 + 65536 * a2 + 16777216 * a3, d,
             .TimelockOnly, c0 + 256 * c1 + 65536 * c2 + 16777216 * c3,
             i0 + 256 * i1 + 65536 * i2 + 16777216 * i3⟩
      else if rb = 2 then
        .ok ⟨v, t, a0 + 256 * a1 + 65536 * a2 + 16777216 * a3, d,
             .MultiSig, c0 + 256 * c1 + 65536 * c2 + 16777216 * c3,
             i0 + 256 * i1 + 65536 * i2 + 16777216 * i3⟩
      else .error (.MetadataError ("Invalid recovery_type: " ++ toString rb)) := by
  have h := from_bytes_append_eq v rb t d []
    a0 a1 a2 a3 c0 c1 c2 c3 i0 i1 i2 i3 hu
  rw [List.append_nil] at h
  exact h

/-- Witness for C5: recovery byte 9 in an otherwise well-formed buffer is
rejected naming the value 9. -/
theorem recovery_type_byte_spec_witness :
    VaultMetadata.from_bytes
      [1, 1, 97, 0, 0, 0, 0, 0, 9, 0, 0, 0, 0, 0, 0, 0, 0] =
      .error (.MetadataError ("Invalid recovery_type: " ++ toString (9 : Nat))) := by
  have h := recovery_type_byte_spec 1 9 [97] [] 0 0 0 0 0 0 0 0 0 0 0 0
    (by decide) (by decide)
  rw [if_neg (by decide), if_neg (by decide), if_neg (by decide)] at h
  exact h

/-- C10: the decoder does not require the input to be exactly consumed:
appending any non-empty trailing byte sequence to a valid encoding leaves
the decode result unchanged — the trailing bytes are silently ignored. -/
theorem from_bytes_ignores_trailing (m : VaultMetadata) (hwf : m.wf)
    (ht : m.template_id.length ≤ 255)
    (hd : m.destination_indices.length ≤ 255)
    (s : List Nat) (hs : s ≠ []) :
    VaultMetadata.from_bytes (m.to_bytes ++ s) = .ok m := by
  obtain ⟨ver, t, delay, d, rt, cb, vi⟩ := m
  unfold VaultMetadata.wf at hwf
  dsimp only at hwf ht hd
  obtain ⟨-, -, hu, hdelay, -, hcb, hvi⟩ := hwf
  have e : VaultMetadata.to_bytes ⟨ver, t, delay, d, rt, cb, vi⟩ ++ s =
      ver :: t.length :: (t ++
        ([delay % 256, delay / 256 % 256, delay / 65536 % 256,
          delay / 16777216 % 256] ++ (d.length :: (d ++ (rt.toByte ::
        ([cb % 256, cb / 256 % 256, cb / 65536 % 256, cb / 16777216 % 256] ++
        ([vi % 256, vi / 256 % 256, vi / 65536 % 256, vi / 16777216 % 256] ++
          s))))))) := by
    simp [VaultMetadata.to_bytes, u32ToLeBytes, List.append_assoc,
      Nat.mod_eq_of_lt (show t.length < 256 by omega),
      Nat.mod_eq_of_lt (show d.length < 256 by omega)]
  rw [e, from_bytes_append_eq _ _ _ _ _ _ _ _ _ _ _ _ _ _ _ _ _ hu]
  have hS1 : delay % 256 + 256 * (delay / 256 % 256) +
      65536 * (delay / 65536 % 256) +
      16777216 * (delay / 16777216 % 256) = delay := by omega
  have hS2 : cb % 256 + 256 * (cb / 256 % 256) + 65536 * (cb / 65536 % 256) +
      16777216 * (cb / 16777216 % 256) = cb := by omega
  have hS3 : vi % 256 + 256 * (vi / 256 % 256) + 65536 * (vi / 65536 % 256) +
      16777216 * (vi / 16777216 % 256) = vi := by omega
  cases rt <;> simp [RecoveryType.toByte, hS1, hS2, hS3]

/-- Witness for C10: two junk bytes appended to the sample encoding are
ignored. -/
theorem from_bytes_ignores_trailing_witness :
    VaultMetadata.from_bytes (sampleMetadata.to_bytes ++ [222, 173]) =
      .ok sampleMetadata :=
  from_bytes_ignores_trailing sampleMetadata (by decide) (by decide)
    (by decide) [222, 173] (by decide)

end VaultCore
